import Mathlib

/-!
Verification of the dispatch engine of the router package.

The development is a shallow embedding of the source files:
  - lib/layer.js   (Layer: arity-based handler dispatch, path matching)
  - lib/route.js   (Route: per-method dispatch loop with sync counter)
  - index.js       (Router: stack scan loop, mergeParams, processParams,
                    restore bookkeeping, automatic OPTIONS response)
  - lib/matcher.js (decodeParam and matcher construction)

Stateful continuation-passing code is modelled as explicit step functions
on state records; the mutable `sync` counter and the `setImmediate`
deferrals are modelled by small-step drivers that thread the counter the
way the JavaScript closure does (the `sync = 0` statement placed after a
handler invocation takes effect when the synchronous chain unwinds).
-/

set_option maxHeartbeats 1000000

namespace RouterVerify

/-- A JavaScript error value: constructor name, message, and the optional
`status` property that decodeParam attaches. -/
structure JsError where
  name : String
  msg : String
  status : Option Nat
deriving DecidableEq, Repr

/-- The argument passed to a continuation `next(err)`: absent/null/undefined
(falsy), the control strings "route" and "router", or a truthy error value. -/
inductive NextArg where
  | none
  | route
  | router
  | error (e : JsError)
deriving DecidableEq, Repr

/-- JavaScript truthiness of a `next` argument (`if (err)`). -/
def NextArg.truthy : NextArg → Bool
  | .none => false
  | _ => true

/- ===================== Layer (lib/layer.js) ===================== -/

/-- Observable behaviour of a handler function body, as seen by
`handleRequest`/`handleError`: return normally, call the continuation
synchronously, throw, or return a promise that later rejects (with the
carried value, or undefined). -/
inductive HandlerBehavior where
  | ret
  | callNext (arg : NextArg)
  | throwErr (e : JsError)
  | promiseReject (e : Option JsError)
deriving DecidableEq, Repr

/-- A handler function: its declared parameter count (`fn.length`) and its
body behaviour. -/
structure Handler where
  arity : Nat
  behavior : HandlerBehavior
deriving DecidableEq, Repr

/-- The default error substituted for an undefined promise-rejection value:
`new Error('Rejected promise')`. -/
def rejectedPromiseError : JsError :=
  { name := "Error", msg := "Rejected promise", status := Option.none }

/-- What invoking the handler body leads to: the continuation call it makes
(if any).  A thrown exception is caught and forwarded as `next(err)`, a
rejected promise is forwarded as `next(error)` with the default error when
the rejection value is undefined (lib/layer.js lines 35-45, 65-75). -/
def runBody (h : Handler) : Option NextArg :=
  match h.behavior with
  | .ret => Option.none
  | .callNext a => some a
  | .throwErr e => some (.error e)
  | .promiseReject (some e) => some (.error e)
  | .promiseReject Option.none => some (.error rejectedPromiseError)

/-- Result of `handleRequest`/`handleError`: either the wrapped handler body
ran (with the continuation call it produced, if any), or the handler was
skipped and the continuation was resumed directly with the given argument. -/
inductive LayerOutcome where
  | handlerRan (nextCall : Option NextArg)
  | skipped (nextCall : NextArg)
deriving DecidableEq, Repr

/-- Layer.prototype.handleRequest: `if (fn.length > 3) return next()`;
otherwise invoke the handler (lib/layer.js lines 57-76). -/
def handleRequest (h : Handler) : LayerOutcome :=
  if h.arity > 3 then .skipped .none
  else .handlerRan (runBody h)

/-- Layer.prototype.handleError: `if (fn.length !== 4) return next(error)`;
otherwise invoke the handler with the error (lib/layer.js lines 27-46). -/
def handleError (h : Handler) (error : NextArg) : LayerOutcome :=
  if h.arity ≠ 4 then .skipped error
  else .handlerRan (runBody h)

/- ===================== Route (lib/route.js) ===================== -/

/-- A Layer stored in a Route stack: an optional method tag (`undefined`
for layers registered via `all`) and the wrapped handler. -/
structure RouteLayer where
  method : Option String
  handler : Handler
deriving DecidableEq, Repr

/-- A Route: the set of registered methods (insertion-ordered, no
duplicates), the `_all` flag set by `all` registration, and the layer
stack. -/
structure Route where
  methods : List String
  allFlag : Bool
  stack : List RouteLayer
deriving DecidableEq, Repr

/-- Route.prototype._handlesMethod (lib/route.js lines 26-36). -/
def Route.handlesMethod (r : Route) (method : String) : Bool :=
  if r.allFlag then true
  else
    let m := if method == "HEAD" && !(r.methods.contains "HEAD") then "GET" else method
    r.methods.contains m

/-- Route.prototype._methods: the registered methods with HEAD appended
when GET is registered but HEAD is not (lib/route.js lines 43-52). -/
def Route.methodsList (r : Route) : List String :=
  r.methods ++ (if r.methods.contains "GET" && !(r.methods.contains "HEAD") then ["HEAD"] else [])

/-- The request fields Route.dispatch can read or write. -/
structure RouteReq where
  method : String
  route : Option Route
deriving DecidableEq, Repr

/-- What the entry code of Route.dispatch does before the loop starts. -/
inductive InitOut where
  | doneNow (arg : NextArg)
  | running (lookupMethod : String)
deriving DecidableEq, Repr

/-- Entry of Route.prototype.dispatch (lib/route.js lines 60-76): an empty
stack returns `done()` before touching the request; otherwise the effective
lookup method is computed (HEAD falls back to GET when HEAD is not
registered, without changing `req.method`) and `req.route` is assigned. -/
def Route.dispatchInit (r : Route) (req : RouteReq) : RouteReq × InitOut :=
  if r.stack.length = 0 then (req, .doneNow .none)
  else
    let method := if req.method == "HEAD" && !(r.methods.contains "HEAD") then "GET" else req.method
    ({ req with route := some r }, .running method)

/-- The scan of Route.dispatch `next` (lib/route.js lines 103-109): starting
at the given stack suffix, the first layer whose method tag is absent or
equal to the lookup method; returns its absolute index. -/
def scanFrom (method : String) : List RouteLayer → Nat → Option Nat
  | [], _ => Option.none
  | l :: rest, j =>
    if (match l.method with
        | Option.none => true
        | some m => m == method) then some j
    else scanFrom method rest (j + 1)

/-- One outcome of the `next` closure of Route.dispatch. -/
inductive RouteStepOut where
  | callDone (arg : NextArg)
  | deferNext (idx : Nat) (arg : NextArg)
  | invoke (layerIdx : Nat) (isErr : Bool) (arg : NextArg) (idxAfter : Nat)
deriving DecidableEq, Repr

/-- One entry into the `next` closure of Route.prototype.dispatch
(lib/route.js lines 78-123), as a function of the captured mutable state
(`idx`, `sync`) and the argument:
  - "route" exits the Route via `done()`;
  - "router" is forwarded out via `done(err)`;
  - an exhausted stack calls `done(err)`;
  - once the incremented sync counter exceeds 100 the iteration is
    deferred via `setImmediate(next, err)`;
  - otherwise the scan picks the next layer matching the lookup method and
    invokes `handleError` (error in flight) or `handleRequest`. -/
def routeNextStep (stack : List RouteLayer) (method : String) (idx sync : Nat)
    (err : NextArg) : RouteStepOut :=
  if err = .route then .callDone .none
  else if err = .router then .callDone .router
  else if stack.length ≤ idx then .callDone err
  else if 100 < sync + 1 then .deferNext idx err
  else
    match scanFrom method (stack.drop idx) idx with
    | Option.none => .callDone err
    | some j => .invoke j err.truthy err (j + 1)

/-- Result of running the loop within one macro-turn. -/
inductive TurnResult where
  | doneCalled (arg : NextArg)
  | deferred (idx : Nat) (arg : NextArg)
  | turnEnded
  | fuelOut
deriving DecidableEq, Repr

/-- A finished macro-turn: its result, the number of handler invocations it
performed, and the value of the mutable `sync` counter after the
synchronous call chain unwound (each frame that invoked a handler executes
`sync = 0` when the chain returns through it). -/
structure TurnOut where
  result : TurnResult
  invocations : Nat
  finalSync : Nat
deriving DecidableEq, Repr

/-- One macro-turn of Route.dispatch with synchronously continuing
handlers: the oracle says, for the k-th handler invoked this turn, whether
the handler calls `next` synchronously (and with which argument) or
returns without a synchronous continuation (ending the turn).  `sync` is
threaded exactly as the JavaScript closure variable: incremented on every
re-entry, and set to 0 by the unwinding frames after a handler was
invoked. -/
def routeRunTurn (stack : List RouteLayer) (method : String)
    (oracle : Nat → Option NextArg) :
    Nat → Nat → Nat → Nat → NextArg → TurnOut
  | 0, _, _, sync, _ => ⟨.fuelOut, 0, sync⟩
  | fuel + 1, k, idx, sync, arg =>
    match routeNextStep stack method idx sync arg with
    | .callDone a => ⟨.doneCalled a, 0, sync⟩
    | .deferNext i a => ⟨.deferred i a, 0, sync + 1⟩
    | .invoke _ _ _ idxAfter =>
      match oracle k with
      | Option.none => ⟨.turnEnded, 1, 0⟩
      | some a2 =>
        let r := routeRunTurn stack method oracle fuel (k + 1) idxAfter (sync + 1) a2
        ⟨r.result, r.invocations + 1, 0⟩

/- ============ Params objects (req.params and friends) ============ -/

/-- A key of a params object: a numeric index (regex capture) or a named
parameter. -/
inductive ParamKey where
  | num (n : Nat)
  | str (s : String)
deriving DecidableEq, Repr

/-- A params object: insertion-ordered key/value pairs with unique keys. -/
abbrev Params := List (ParamKey × String)

/-- Property lookup `ps[k]`. -/
def pget : Params → ParamKey → Option String
  | [], _ => Option.none
  | kv :: rest, k => if kv.1 = k then some kv.2 else pget rest k

/-- Property assignment `ps[k] = v` (replace in place, else append). -/
def pset : Params → ParamKey → String → Params
  | [], k, v => [(k, v)]
  | kv :: rest, k, v => if kv.1 = k then (k, v) :: rest else kv :: pset rest k v

/-- Property deletion `delete ps[k]`. -/
def pdel : Params → ParamKey → Params
  | [], _ => []
  | kv :: rest, k => if kv.1 = k then pdel rest k else kv :: pdel rest k

/-- Property presence `k in ps`. -/
def phas (ps : Params) (k : ParamKey) : Bool :=
  (pget ps k).isSome

/-- `Object.assign(obj, ps)`: write every property of `ps` into `obj` in
order. -/
def passign (obj : Params) : Params → Params
  | [] => obj
  | kv :: rest => passign (pset obj kv.1 kv.2) rest

lemma pget_pset (ps : Params) (k : ParamKey) (v : String) (k2 : ParamKey) :
    pget (pset ps k v) k2 = if k2 = k then some v else pget ps k2 := by
  induction ps with
  | nil =>
    by_cases h : k2 = k
    · simp [pget, pset, h]
    · simp [pget, pset, h, Ne.symm h]
  | cons kv rest ih =>
    by_cases h1 : kv.1 = k <;> by_cases h2 : k2 = k <;>
      simp_all [pget, pset] <;>
      by_cases h3 : kv.1 = k2 <;> simp_all [Ne.symm]

lemma pget_pdel (ps : Params) (k k2 : ParamKey) :
    pget (pdel ps k) k2 = if k2 = k then Option.none else pget ps k2 := by
  induction ps with
  | nil => by_cases h : k2 = k <;> simp [pget, pdel, h]
  | cons kv rest ih =>
    by_cases h1 : kv.1 = k <;> by_cases h2 : k2 = k <;>
      simp_all [pget, pdel] <;>
      by_cases h3 : kv.1 = k2 <;> simp_all [Ne.symm]

lemma pget_eq_none_of_not_mem {ps : Params} {k : ParamKey}
    (h : k ∉ ps.map Prod.fst) : pget ps k = Option.none := by
  induction ps with
  | nil => rfl
  | cons kv rest ih =>
    simp only [List.map_cons, List.mem_cons] at h
    push_neg at h
    simp [pget, ih h.2, Ne.symm h.1]

/-- Lookup after `Object.assign` on a source with unique keys: the source
value wins when present, otherwise the target value survives. -/
lemma pget_passign (ps : Params) (hnd : (ps.map Prod.fst).Nodup) :
    ∀ (obj : Params) (k : ParamKey),
      pget (passign obj ps) k = Option.or (pget ps k) (pget obj k) := by
  induction ps with
  | nil => intro obj k; simp [passign, pget]
  | cons kv rest ih =>
    intro obj k
    simp only [List.map_cons, List.nodup_cons] at hnd
    by_cases h : kv.1 = k
    · subst h
      have hrest : pget rest kv.1 = Option.none :=
        pget_eq_none_of_not_mem hnd.1
      simp [passign, ih hnd.2, hrest, pget, pget_pset]
    · simp [passign, ih hnd.2, pget, pget_pset, h, Ne.symm h]

/- ============ mergeParams (index.js lines 521-558) ============ -/

/-- The loop `while (i in ps) i++` starting at `i`, with fuel (the object
is finite; `ps.length + 1` steps always suffice). -/
def gapGo (ps : Params) : Nat → Nat → Nat
  | i, 0 => i
  | i, fuel + 1 => if phas ps (.num i) then gapGo ps (i + 1) fuel else i

/-- The first numeric index not present in `ps`, counting from 0: the
length of the consecutive numeric-capture block. -/
def pgap (ps : Params) : Nat :=
  gapGo ps 0 (ps.length + 1)

/-- One iteration of the offsetting loop of mergeParams:
`params[i + o] = params[i]; if (i < o) delete params[i]`.  (The source runs
it only for `i` below the gap, where `params[i]` is always present.) -/
def offsetStep (ps : Params) (o i : Nat) : Params :=
  match pget ps (.num i) with
  | some v =>
    let ps2 := pset ps (.num (i + o)) v
    if i < o then pdel ps2 (.num i) else ps2
  | Option.none =>
    if i < o then pdel ps (.num i) else ps

/-- The offsetting loop `for (i--; i >= 0; i--)`: indices `m-1, m-2, ..., 0`
processed in descending order. -/
def offsetLoop (ps : Params) (o : Nat) : Nat → Params
  | 0 => ps
  | n + 1 => offsetLoop (offsetStep ps o n) o n

/-- mergeParams (index.js lines 521-558): a non-object parent returns the
layer params as-is; without numeric collisions the layer params are
assigned over a copy of the parent; with a numeric index 0 on both sides
the layer's consecutive numeric block is first offset by the parent's
consecutive-block length. -/
def mergeParamsFn : Params → Option Params → Params
  | params, Option.none => params
  | params, some par =>
    if !(phas params (.num 0)) || !(phas par (.num 0)) then passign par params
    else passign par (offsetLoop params (pgap par) (pgap params))

/- ============ lemmas about the mergeParams offsetting loop ============ -/

lemma mem_keys_pset (ps : Params) (k : ParamKey) (v : String) (x : ParamKey) :
    x ∈ (pset ps k v).map Prod.fst ↔ x ∈ ps.map Prod.fst ∨ x = k := by
  induction ps with
  | nil => simp [pset]
  | cons kv rest ih =>
    by_cases h1 : kv.1 = k
    · subst h1; simp [pset]; tauto
    · simp [pset, h1, ih]; tauto

lemma pset_keys_nodup {ps : Params} (h : (ps.map Prod.fst).Nodup)
    (k : ParamKey) (v : String) : ((pset ps k v).map Prod.fst).Nodup := by
  induction ps with
  | nil => simp [pset]
  | cons kv rest ih =>
    simp only [List.map_cons, List.nodup_cons] at h
    by_cases h1 : kv.1 = k
    · subst h1
      rw [show pset (kv :: rest) kv.1 v = (kv.1, v) :: rest from by simp [pset]]
      simpa [List.nodup_cons] using h
    · simp only [pset, if_neg h1, List.map_cons, List.nodup_cons]
      refine ⟨fun hmem => ?_, ih h.2⟩
      rcases (mem_keys_pset rest k v kv.1).mp hmem with hx | hx
      · exact h.1 hx
      · exact h1 hx

lemma mem_keys_pdel {ps : Params} {k x : ParamKey}
    (h : x ∈ (pdel ps k).map Prod.fst) : x ∈ ps.map Prod.fst := by
  induction ps with
  | nil => simpa [pdel] using h
  | cons kv rest ih =>
    by_cases h1 : kv.1 = k
    · simp only [pdel, if_pos h1] at h
      exact List.mem_cons_of_mem _ (ih h)
    · simp only [pdel, if_neg h1, List.map_cons, List.mem_cons] at h ⊢
      tauto

lemma pdel_keys_nodup {ps : Params} (h : (ps.map Prod.fst).Nodup)
    (k : ParamKey) : ((pdel ps k).map Prod.fst).Nodup := by
  induction ps with
  | nil => simp [pdel]
  | cons kv rest ih =>
    simp only [List.map_cons, List.nodup_cons] at h
    by_cases h1 : kv.1 = k
    · simp only [pdel, if_pos h1]
      exact ih h.2
    · simp only [pdel, if_neg h1, List.map_cons, List.nodup_cons]
      exact ⟨fun hmem => h.1 (mem_keys_pdel hmem), ih h.2⟩

lemma offsetStep_keys_nodup {ps : Params} (h : (ps.map Prod.fst).Nodup)
    (o i : Nat) : ((offsetStep ps o i).map Prod.fst).Nodup := by
  unfold offsetStep
  rcases pget ps (.num i) with _ | v
  · by_cases hio : i < o
    · simpa [hio] using pdel_keys_nodup h _
    · simpa [hio] using h
  · by_cases hio : i < o
    · simpa [hio] using pdel_keys_nodup (pset_keys_nodup h _ _) _
    · simpa [hio] using pset_keys_nodup h _ _

lemma offsetLoop_keys_nodup {ps : Params} (h : (ps.map Prod.fst).Nodup)
    (o : Nat) : ∀ m, ((offsetLoop ps o m).map Prod.fst).Nodup := by
  intro m
  induction m generalizing ps h with
  | zero => exact h
  | succ n ih =>
    show ((offsetLoop (offsetStep ps o n) o n).map Prod.fst).Nodup
    exact ih (offsetStep_keys_nodup h o n)

lemma pget_offsetStep (ps : Params) (o i : Nat) (hi : phas ps (.num i) = true)
    (k : ParamKey) :
    pget (offsetStep ps o i) k =
      if k = ParamKey.num (i + o) then pget ps (.num i)
      else if k = ParamKey.num i ∧ i < o then Option.none
      else pget ps k := by
  rcases hv : pget ps (.num i) with _ | v
  · simp [phas, hv] at hi
  · simp only [offsetStep, hv]
    by_cases hio : i < o
    · rw [if_pos hio, pget_pdel, pget_pset]
      by_cases h1 : k = ParamKey.num (i + o) <;> by_cases h2 : k = ParamKey.num i <;>
        simp_all <;> omega
    · rw [if_neg hio, pget_pset]
      by_cases h1 : k = ParamKey.num (i + o)
      · simp [h1, hv]
      · rw [if_neg h1, if_neg h1, if_neg (fun hx => absurd hx.2 (by omega))]

lemma phas_offsetStep_lt {ps : Params} {o n : Nat} (j : Nat) (hj : j < n)
    (hn : phas ps (.num n) = true) (hpres : phas ps (.num j) = true) :
    phas (offsetStep ps o n) (.num j) = true := by
  unfold phas
  rw [pget_offsetStep ps o n hn]
  have h1 : ¬(ParamKey.num j = ParamKey.num (n + o)) := by simp; omega
  have h2 : ¬(ParamKey.num j = ParamKey.num n ∧ n < o) := by
    intro hx
    have := hx.1
    simp at this
    omega
  rw [if_neg h1, if_neg h2]
  exact hpres

lemma pget_offsetLoop_str (o : Nat) :
    ∀ (m : Nat) (ps : Params), (∀ j, j < m → phas ps (.num j) = true) →
      ∀ s, pget (offsetLoop ps o m) (.str s) = pget ps (.str s) := by
  intro m
  induction m with
  | zero => intro ps _ s; rfl
  | succ n ih =>
    intro ps h s
    have hn := h n (Nat.lt_succ_self n)
    have hstep : ∀ j, j < n → phas (offsetStep ps o n) (.num j) = true :=
      fun j hj => phas_offsetStep_lt j hj hn (h j (by omega))
    show pget (offsetLoop (offsetStep ps o n) o n) (.str s) = _
    rw [ih (offsetStep ps o n) hstep s, pget_offsetStep ps o n hn]
    have h1 : ¬(ParamKey.str s = ParamKey.num (n + o)) := by simp
    have h2 : ¬(ParamKey.str s = ParamKey.num n ∧ n < o) := by simp
    rw [if_neg h1, if_neg h2]

/-- Final state of the offsetting loop on a map whose numeric keys
`0 .. m-1` are all present: the block is shifted up by `o`, the positions
below `min m o` are vacated, everything else is untouched. -/
lemma pget_offsetLoop_num (o : Nat) :
    ∀ (m : Nat) (ps : Params), (∀ j, j < m → phas ps (.num j) = true) →
      ∀ t, pget (offsetLoop ps o m) (.num t) =
        if o ≤ t ∧ t < o + m then pget ps (.num (t - o))
        else if t < m ∧ t < o then Option.none
        else pget ps (.num t) := by
  intro m
  induction m with
  | zero =>
    intro ps _ t
    show pget ps (.num t) = _
    rw [if_neg (by omega), if_neg (by omega)]
  | succ n ih =>
    intro ps h t
    have hn := h n (Nat.lt_succ_self n)
    have hstep : ∀ j, j < n → phas (offsetStep ps o n) (.num j) = true :=
      fun j hj => phas_offsetStep_lt j hj hn (h j (by omega))
    show pget (offsetLoop (offsetStep ps o n) o n) (.num t) = _
    rw [ih (offsetStep ps o n) hstep t]
    by_cases c1 : o ≤ t ∧ t < o + n
    · rw [if_pos c1, pget_offsetStep ps o n hn]
      have h1 : ¬(ParamKey.num (t - o) = ParamKey.num (n + o)) := by simp; omega
      have h2 : ¬(ParamKey.num (t - o) = ParamKey.num n ∧ n < o) := by
        intro hx
        have := hx.1
        simp at this
        omega
      rw [if_neg h1, if_neg h2, if_pos (show o ≤ t ∧ t < o + (n + 1) by omega)]
    · rw [if_neg c1]
      by_cases c2 : t < n ∧ t < o
      · rw [if_pos c2, if_neg (by omega), if_pos (by omega)]
      · rw [if_neg c2, pget_offsetStep ps o n hn]
        by_cases d1 : t = n + o
        · rw [if_pos (by simp [d1]), if_pos (by omega)]
          have : t - o = n := by omega
          rw [this]
        · rw [if_neg (by simp; omega)]
          by_cases d2 : t = n ∧ n < o
          · rw [if_pos ⟨by simp [d2.1], d2.2⟩, if_neg (by omega), if_pos (by omega)]
          · rw [if_neg (fun hx => d2 ⟨by simpa using hx.1, hx.2⟩),
               if_neg (by omega), if_neg (by omega)]

/-- C9: with mergeParams enabled, a non-object parent leaves the layer
params as-is; without a numeric index 0 on both sides the merge is a plain
overlay with the layer (child) values taking precedence; when both sides
carry a numeric index 0, the layer's consecutive numeric block (length G)
is first offset by the parent's consecutive numeric block length O, so the
parent's captures at indices below O are preserved, the layer's capture n
lands at index n+O, and named keys still overlay with child precedence. -/
theorem C9_merge_params :
    ∀ (params par : Params) (G O : Nat),
      mergeParamsFn params Option.none = params ∧
      ((params.map Prod.fst).Nodup →
        (phas params (.num 0) = false ∨ phas par (.num 0) = false) →
        ∀ k, pget (mergeParamsFn params (some par)) k =
          Option.or (pget params k) (pget par k)) ∧
      ((params.map Prod.fst).Nodup →
        (∀ j, phas params (.num j) = true ↔ j < G) →
        0 < G →
        phas par (.num 0) = true →
        pgap params = G →
        pgap par = O →
        (∀ n, n < G →
          pget (mergeParamsFn params (some par)) (.num (n + O)) = pget params (.num n)) ∧
        (∀ j, j < O →
          pget (mergeParamsFn params (some par)) (.num j) = pget par (.num j)) ∧
        (∀ s, pget (mergeParamsFn params (some par)) (.str s) =
          Option.or (pget params (.str s)) (pget par (.str s)))) := by
  intro params par G O
  refine ⟨rfl, ?_, ?_⟩
  · intro hnd hzero k
    have hcond : (!(phas params (.num 0)) || !(phas par (.num 0))) = true := by
      rcases hzero with h | h <;> simp [h]
    show pget (mergeParamsFn params (some par)) k = _
    rw [show mergeParamsFn params (some par) = passign par params from by
      simp only [mergeParamsFn]
      rw [if_pos hcond]]
    exact pget_passign params hnd par k
  · intro hnd hiff hG h0 hgp hgo
    have h0p : phas params (.num 0) = true := (hiff 0).mpr hG
    rw [show mergeParamsFn params (some par) =
        passign par (offsetLoop params O G) from by
      simp only [mergeParamsFn]
      rw [if_neg (by simp [h0p, h0]), hgp, hgo]]
    have hpres : ∀ j, j < G → phas params (.num j) = true :=
      fun j hj => (hiff j).mpr hj
    have hnd2 : ((offsetLoop params O G).map Prod.fst).Nodup :=
      offsetLoop_keys_nodup hnd O G
    refine ⟨?_, ?_, ?_⟩
    · intro n hn
      rw [pget_passign _ hnd2 par (.num (n + O)),
          pget_offsetLoop_num O G params hpres (n + O), if_pos (by omega)]
      have hsub : n + O - O = n := by omega
      rw [hsub]
      rcases hx : pget params (.num n) with _ | w
      · exact absurd (hpres n hn) (by simp [phas, hx])
      · rfl
    · intro j hj
      rw [pget_passign _ hnd2 par (.num j),
          pget_offsetLoop_num O G params hpres j, if_neg (by omega)]
      by_cases hjG : j < G
      · rw [if_pos ⟨hjG, hj⟩]
        rfl
      · rw [if_neg (fun hx => hjG hx.1)]
        have hnone : pget params (.num j) = Option.none := by
          have hft : ¬ phas params (.num j) = true :=
            fun hh => hjG ((hiff j).mp hh)
          rcases hy : pget params (.num j) with _ | w
          · rfl
          · exact absurd (by simp [phas, hy]) hft
        rw [hnone]
        rfl
    · intro s
      rw [pget_passign _ hnd2 par (.str s),
          pget_offsetLoop_str O G params hpres s]

/-- Concrete layer params for the C9 witness: one regex capture and one
named parameter. -/
def paramsW : Params := [(ParamKey.num 0, "a"), (ParamKey.str "id", "x")]

/-- Concrete parent params for the C9 witness: two regex captures and a
conflicting named parameter. -/
def parW : Params := [(ParamKey.num 0, "p"), (ParamKey.num 1, "q"), (ParamKey.str "id", "old")]

/-- Witness for C9 on concrete maps: the child capture is shifted to index
2, the parent captures at 0 and 1 survive, and the named key takes the
child value. -/
theorem C9_merge_params_witness :
    pget (mergeParamsFn paramsW (some parW)) (.num 2) = some "a" ∧
    pget (mergeParamsFn paramsW (some parW)) (.num 0) = some "p" ∧
    pget (mergeParamsFn paramsW (some parW)) (.num 1) = some "q" ∧
    pget (mergeParamsFn paramsW (some parW)) (.str "id") = some "x" := by
  have h := (C9_merge_params paramsW parW 1 2).2.2 (by decide)
    (by intro j; cases j <;> simp [paramsW, phas, pget])
    (by decide) (by decide) (by decide) (by decide)
  refine ⟨?_, ?_, ?_, ?_⟩
  · exact (h.1 0 (by decide)).trans (by decide)
  · exact (h.2.1 0 (by decide)).trans (by decide)
  · exact (h.2.1 1 (by decide)).trans (by decide)
  · exact (h.2.2 "id").trans (by decide)

/- ============ decodeParam (lib/matcher.js lines 113-128) ============ -/

/-- Value of a hexadecimal digit character. -/
def hexVal (c : Char) : Option Nat :=
  if '0' ≤ c ∧ c ≤ '9' then some (c.toNat - 48)
  else if 'A' ≤ c ∧ c ≤ 'F' then some (c.toNat - 55)
  else if 'a' ≤ c ∧ c ≤ 'f' then some (c.toNat - 87)
  else Option.none

/-- Percent-escape decoding, modelling the external `decodeURIComponent`
builtin on its malformed-escape failure mode: a `%` not followed by two
hexadecimal digits fails. -/
def percentDecode : List Char → Option (List Char)
  | [] => some []
  | '%' :: c1 :: c2 :: rest =>
    match hexVal c1, hexVal c2 with
    | some h, some l => (percentDecode rest).map (fun t => Char.ofNat (16 * h + l) :: t)
    | _, _ => Option.none
  | '%' :: _ => Option.none
  | c :: rest => (percentDecode rest).map (fun t => c :: t)

/-- Model of the `decodeURIComponent` builtin: throws a URIError on a
malformed escape. -/
def decodeURIComponentM (s : String) : Except JsError String :=
  match percentDecode s.data with
  | some cs => .ok (String.mk cs)
  | Option.none => .error { name := "URIError", msg := "URI malformed", status := Option.none }

/-- decodeParam (lib/matcher.js lines 113-128): non-strings and empty
strings pass through; a URIError from decoding is rethrown with message
`Failed to decode param '<raw>'` and `status` 400. -/
def decodeParam (val : Option String) : Except JsError (Option String) :=
  match val with
  | Option.none => .ok Option.none
  | some s =>
    if s.length = 0 then .ok (some s)
    else
      match decodeURIComponentM s with
      | .ok d => .ok (some d)
      | .error e =>
        .error (if e.name = "URIError"
                then { e with msg := "Failed to decode param '" ++ s ++ "'", status := some 400 }
                else e)

/-- The capture-decoding loop of a compiled matcher (lib/matcher.js lines
30-46 and 71-80): decode each captured raw value with decodeParam; the
first decoding failure aborts the whole match with that error. -/
def decodeEntries : List (ParamKey × String) → Except JsError Params
  | [] => .ok []
  | (k, v) :: rest =>
    match decodeParam (some v) with
    | .error e => .error e
    | .ok w =>
      match decodeEntries rest with
      | .error e => .error e
      | .ok ps => .ok ((k, w.getD v) :: ps)

/- ============ processParams (index.js lines 564-646) ============ -/

/-- The memo record `called[key] = { error, match, value }`. -/
structure Memo where
  error : NextArg
  matchv : Option String
  value : Option String
deriving DecidableEq, Repr

/-- The per-dispatch `paramcalled` object. -/
abbrev CalledMap := List (ParamKey × Memo)

/-- Memo lookup. -/
def cget : CalledMap → ParamKey → Option Memo
  | [], _ => Option.none
  | kv :: rest, k => if kv.1 = k then some kv.2 else cget rest k

/-- Memo assignment. -/
def cset : CalledMap → ParamKey → Memo → CalledMap
  | [], k, m => [(k, m)]
  | kv :: rest, k, m => if kv.1 = k then (k, m) :: rest else kv :: cset rest k m

/-- A registered param callback, as its observable effect: it may mutate
`req.params` and then calls its continuation with an optional error (a
thrown exception or rejected promise is folded into the error argument,
as the source does). -/
abbrev Callback := Params → Params × NextArg

/-- Result of running the callback chain for one key. -/
structure CbOut where
  params : Params
  memo : Memo
  err : NextArg
  count : Nat
deriving DecidableEq, Repr

/-- The `paramCallback` loop (index.js lines 620-643): at each entry the
memo value is refreshed from `req.params[key]`; an error argument is
recorded on the memo and finishes the key; otherwise the next callback
runs and its continuation argument feeds the next iteration.  `count` is
the number of callbacks invoked. -/
def paramCbLoop : List Callback → ParamKey → Params → Memo → NextArg → CbOut
  | cbs, k, ps, memo, err =>
    let memo1 := { memo with value := pget ps k }
    if err ≠ .none then { params := ps, memo := { memo1 with error := err }, err := err, count := 0 }
    else
      match cbs with
      | [] => { params := ps, memo := memo1, err := .none, count := 0 }
      | fn :: rest =>
        let pr := fn ps
        let r := paramCbLoop rest k pr.1 memo1 pr.2
        { r with count := r.count + 1 }

/-- Result of processParams. -/
structure PPOut where
  params : Params
  called : CalledMap
  err : NextArg
  count : Nat
deriving DecidableEq, Repr

/-- The `param` loop of processParams (index.js lines 582-617): keys are
processed in match order; a key with no captured value or no registered
callbacks is skipped; a key whose memo records the same matched value, or
a remembered non-"route" error, restores the remembered value and
propagates the remembered error without invoking callbacks; otherwise a
fresh memo is stored and the callback chain runs. -/
def processParamsLoop (registry : ParamKey → List Callback) :
    List ParamKey → CalledMap → Params → PPOut
  | [], called, ps => { params := ps, called := called, err := .none, count := 0 }
  | k :: rest, called, ps =>
    match pget ps k, registry k with
    | Option.none, _ => processParamsLoop registry rest called ps
    | some _, [] => processParamsLoop registry rest called ps
    | some v, cb :: cbs =>
      match cget called k with
      | some memo =>
        if memo.matchv = some v ∨ (memo.error ≠ .none ∧ memo.error ≠ .route) then
          let ps2 := match memo.value with
                     | some w => pset ps k w
                     | Option.none => pdel ps k
          if memo.error ≠ .none then { params := ps2, called := called, err := memo.error, count := 0 }
          else processParamsLoop registry rest called ps2
        else
          let memo0 : Memo := { error := .none, matchv := some v, value := some v }
          let r := paramCbLoop (cb :: cbs) k ps memo0 .none
          let called2 := cset called k r.memo
          if r.err ≠ .none then { params := r.params, called := called2, err := r.err, count := r.count }
          else
            let rr := processParamsLoop registry rest called2 r.params
            { rr with count := rr.count + r.count }
      | Option.none =>
        let memo0 : Memo := { error := .none, matchv := some v, value := some v }
        let r := paramCbLoop (cb :: cbs) k ps memo0 .none
        let called2 := cset called k r.memo
        if r.err ≠ .none then { params := r.params, called := called2, err := r.err, count := r.count }
        else
          let rr := processParamsLoop registry rest called2 r.params
          { rr with count := rr.count + r.count }

lemma paramCbLoop_count_pos (cb : Callback) (cbs : List Callback)
    (k : ParamKey) (ps : Params) (memo : Memo) :
    1 ≤ (paramCbLoop (cb :: cbs) k ps memo .none).count := by
  simp [paramCbLoop]

/-- C4 counterexample ingredients: a single param callback that always
fails with an error. -/
def cbBoom : Callback :=
  fun ps => (ps, .error { name := "Error", msg := "boom", status := Option.none })

/-- C4 counterexample registry: the callback is registered for `id`. -/
def regBoom : ParamKey → List Callback :=
  fun k => if k = ParamKey.str "id" then [cbBoom] else []

/-- C4 counterexample: the first dispatch captures `id = "a"` and the
callback errors (invoked once); a second layer captures the different
value `id = "b"`, yet the callbacks are NOT re-invoked (count 0) because
the memo remembers a non-"route" error — refuting the claim that a
different captured value always re-invokes the callbacks. -/
theorem C4_counterexample :
    (processParamsLoop regBoom [ParamKey.str "id"] [] [(ParamKey.str "id", "a")]).count = 1 ∧
    ((processParamsLoop regBoom [ParamKey.str "id"] [] [(ParamKey.str "id", "a")]).called.map
      (fun kv => kv.2.matchv)) = [some "a"] ∧
    (processParamsLoop regBoom [ParamKey.str "id"]
      (processParamsLoop regBoom [ParamKey.str "id"] [] [(ParamKey.str "id", "a")]).called
      [(ParamKey.str "id", "b")]).count = 0 ∧
    (processParamsLoop regBoom [ParamKey.str "id"]
      (processParamsLoop regBoom [ParamKey.str "id"] [] [(ParamKey.str "id", "a")]).called
      [(ParamKey.str "id", "b")]).err =
      .error { name := "Error", msg := "boom", status := Option.none } := by
  refine ⟨by decide, by decide, by decide, by decide⟩

/-- C4 (amended): within one dispatch, when a later matched Layer captures
a name whose memo records the same value as last time, the remembered
(possibly callback-mutated) value is restored into `req.params`, the
remembered error is propagated, and the callbacks are not re-invoked
(count 0); a different captured value re-invokes them provided no error
other than the "route" signal is remembered for that name — with such a
remembered error the callbacks stay skipped. -/
theorem C4_param_memo :
    ∀ (registry : ParamKey → List Callback) (called : CalledMap) (ps : Params)
      (k : ParamKey) (v : String) (memo : Memo),
      cget called k = some memo → pget ps k = some v → registry k ≠ [] →
      ((memo.matchv = some v →
        processParamsLoop registry [k] called ps =
          { params := (match memo.value with
                       | some w => pset ps k w
                       | Option.none => pdel ps k),
            called := called, err := memo.error, count := 0 }) ∧
       ((memo.error = .none ∨ memo.error = .route) → memo.matchv ≠ some v →
        1 ≤ (processParamsLoop registry [k] called ps).count)) := by
  intro registry called ps k v memo hm hv hne
  rcases hreg : registry k with _ | ⟨cb, cbs⟩
  · exact absurd hreg hne
  constructor
  · intro hmv
    have hcond : memo.matchv = some v ∨ (memo.error ≠ .none ∧ memo.error ≠ .route) :=
      Or.inl hmv
    simp only [processParamsLoop, hv, hreg, hm, if_pos hcond]
    by_cases he : memo.error = .none
    · rw [if_neg (by simp [he])]
      simp [processParamsLoop, he]
    · rw [if_pos he]
  · intro herr hmv
    have hcond : ¬(memo.matchv = some v ∨ (memo.error ≠ .none ∧ memo.error ≠ .route)) := by
      rintro (h | ⟨h1, h2⟩)
      · exact hmv h
      · rcases herr with he | he
        · exact h1 he
        · exact h2 he
    simp only [processParamsLoop, hv, hreg, hm, if_neg hcond]
    have hc := paramCbLoop_count_pos cb cbs k ps
      { error := .none, matchv := some v, value := some v }
    by_cases hre :
        (paramCbLoop (cb :: cbs) k ps
          { error := .none, matchv := some v, value := some v } .none).err = .none
    · rw [if_neg (by simp [hre])]
      simp only [PPOut.mk.injEq]
      omega
    · rw [if_pos hre]
      exact hc

/-- Witness for C4 (amended) at a concrete memo: with a remembered value
"z" for the same captured value "a", the callbacks are skipped and "z" is
restored; with the different captured value "b" the chain is re-invoked. -/
theorem C4_param_memo_witness :
    processParamsLoop regBoom [ParamKey.str "id"]
        [(ParamKey.str "id", { error := .none, matchv := some "a", value := some "z" })]
        [(ParamKey.str "id", "a")] =
      { params := [(ParamKey.str "id", "z")],
        called := [(ParamKey.str "id", { error := .none, matchv := some "a", value := some "z" })],
        err := .none, count := 0 } ∧
    1 ≤ (processParamsLoop regBoom [ParamKey.str "id"]
        [(ParamKey.str "id", { error := .none, matchv := some "a", value := some "z" })]
        [(ParamKey.str "id", "b")]).count := by
  constructor
  · exact (C4_param_memo regBoom _ _ (ParamKey.str "id") "a"
      { error := .none, matchv := some "a", value := some "z" }
      (by decide) (by decide) (by simp [regBoom])).1 rfl
  · exact (C4_param_memo regBoom _ _ (ParamKey.str "id") "b"
      { error := .none, matchv := some "a", value := some "z" }
      (by decide) (by decide) (by simp [regBoom])).2 (Or.inl rfl) (by decide)

/- ============ Router (index.js) ============ -/

/-- The values a Layer.match success stores on the layer: decoded params,
their keys in match order, and the consumed path. -/
structure MatchData where
  params : Params
  keys : List ParamKey
  path : String
deriving DecidableEq, Repr

/-- A compiled matcher: a pure function of the path that can also throw
(for example a decodeParam failure). -/
abbrev Matcher := String → Except JsError (Option MatchData)

/-- A Layer in a Router stack: the Route it wraps (if any), the `slash`
fast-path flag (path "/" with end:false), its compiled matchers, and the
wrapped handler. -/
structure RLayer where
  route : Option Route
  slash : Bool
  matchers : List Matcher
  handler : Handler

/-- The matcher loop of Layer.prototype.match (lib/layer.js lines 96-105):
first success wins, an exception propagates. -/
def layerMatchGo (p : String) : List Matcher → Except JsError (Option MatchData)
  | [] => .ok Option.none
  | m :: rest =>
    match m p with
    | .error e => .error e
    | .ok (some d) => .ok (some d)
    | .ok Option.none => layerMatchGo p rest

/-- Layer.prototype.match (lib/layer.js lines 87-111): a null path never
matches; the slash fast path matches everything with empty params and an
empty consumed path; otherwise the matchers are tried in order. -/
def layerMatch (l : RLayer) (path : Option String) : Except JsError (Option MatchData) :=
  match path with
  | Option.none => .ok Option.none
  | some p =>
    if l.slash then .ok (some { params := [], keys := [], path := "" })
    else layerMatchGo p l.matchers

/-- The value `matchLayer` hands to the scan loop: a boolean result or the
caught exception as a value. -/
inductive MatchOut where
  | noMatch
  | matched (d : MatchData)
  | exn (e : JsError)

/-- matchLayer (index.js lines 509-515): `try { return layer.match(path) }
catch (err) { return err }`. -/
def matchLayerFn (l : RLayer) (path : Option String) : MatchOut :=
  match layerMatch l path with
  | .ok Option.none => .noMatch
  | .ok (some d) => .matched d
  | .error e => .exn e

/-- Result of the stack scan inside Router.handle `next`. -/
structure ScanRes where
  found : Option (RLayer × MatchData)
  le : NextArg
  acc : Option (List String)
  consumed : Nat

/-- Account for one consumed stack position (`idx++`). -/
def bumpScan (s : ScanRes) : ScanRes :=
  { s with consumed := s.consumed + 1 }

/-- The OPTIONS accumulation step (index.js lines 261-264): when a matched
Route does not handle the method, the method is OPTIONS and the
accumulator is active, the Route's `_methods()` are appended. -/
def optAccum (r : Route) (method : String) (acc : Option (List String)) :
    Option (List String) :=
  if !(r.handlesMethod method) && method == "OPTIONS" && acc.isSome
  then acc.map (fun ms => ms ++ r.methodsList) else acc

/-- The scan loop of Router.handle `next` (index.js lines 228-270) over the
remaining stack suffix: match errors become the pending layerError (the
first one is kept) and scanning continues; a matched plain layer stops the
scan; a matched Route layer is forced to non-match while an error is
pending; a Route that does not handle the method records its methods for
OPTIONS and is skipped unless the method is HEAD. -/
def scanLoop (path method : String) :
    List RLayer → NextArg → Option (List String) → ScanRes
  | [], le, acc => { found := Option.none, le := le, acc := acc, consumed := 0 }
  | l :: rest, le, acc =>
    match matchLayerFn l (some path) with
    | .exn e => bumpScan (scanLoop path method rest (if le = .none then .error e else le) acc)
    | .noMatch => bumpScan (scanLoop path method rest le acc)
    | .matched d =>
      match l.route with
      | Option.none => { found := some (l, d), le := le, acc := acc, consumed := 1 }
      | some r =>
        if le ≠ .none then bumpScan (scanLoop path method rest le acc)
        else if !(r.handlesMethod method) && !(method == "HEAD") then
          bumpScan (scanLoop path method rest le (optAccum r method acc))
        else
          { found := some (l, d), le := le, acc := optAccum r method acc, consumed := 1 }

/-- The request fields Router.handle reads and writes. -/
structure Req where
  method : String
  url : Option String
  baseUrl : Option String
  originalUrl : Option String
  params : Option Params
  route : Option Route
  nextSlot : Option Nat
deriving DecidableEq, Repr

/-- The per-handle constants of Router.handle: the stack, the protohost
prefix, the parent baseUrl and params captured at entry, and the Router
configuration. -/
structure RouterCtx where
  stack : List RLayer
  protohost : String
  parentUrl : String
  parentParams : Option Params
  mergeFlag : Bool
  registry : ParamKey → List Callback

/-- The mutable closure state of Router.handle `next`. -/
structure HState where
  req : Req
  idx : Nat
  sync : Nat
  slashAdded : Bool
  removed : String
  called : CalledMap
  optAcc : Option (List String)

/-- getPathname (index.js lines 476-482), modelling the external parseurl
collaborator: no url means no pathname; otherwise the pathname is the url
after the protohost with any query string removed. -/
def getPathname (protohost : String) (req : Req) : Option String :=
  match req.url with
  | Option.none => Option.none
  | some u => some (String.mk ((u.data.drop protohost.length).takeWhile (fun c => c ≠ '?')))

/-- One outcome of the `next` closure of Router.handle. -/
inductive RouterOut where
  | finishNow (arg : NextArg)
  | finishDefer (arg : NextArg)
  | deferNext (arg : NextArg)
  | reenter (arg : NextArg)
  | invokeHandler (isErr : Bool) (arg : NextArg)
deriving DecidableEq, Repr

/-- The entry bookkeeping of `next` (index.js lines 191-202): undo an added
slash and restore an url prefix trimmed for the previous layer. -/
def routerRestorePhase (ctx : RouterCtx) (st : HState) : HState :=
  let req1 := if st.slashAdded
              then { st.req with url := st.req.url.map (fun u => u.drop 1) }
              else st.req
  if st.removed.length ≠ 0 then
    { st with
      req := { req1 with
               baseUrl := some ctx.parentUrl,
               url := req1.url.map (fun u => ctx.protohost ++ st.removed ++ u.drop ctx.protohost.length) },
      slashAdded := false,
      removed := "" }
  else { st with req := req1, slashAdded := false }

/-- trimPrefix (index.js lines 300-336): for a layer that consumed a
non-empty prefix, validate the prefix and its boundary, strip it from the
url (adding a leading slash when needed), extend baseUrl (eliding a single
trailing slash of the consumed prefix), then invoke the layer. -/
def trimPhase (ctx : RouterCtx) (st : HState) (layerError : NextArg)
    (layerPath path : String) : RouterOut × HState :=
  if layerPath.length ≠ 0 then
    if layerPath ≠ path.take layerPath.length then (.reenter layerError, st)
    else if (match path.data[layerPath.length]? with
             | some c => c != '/'
             | Option.none => false) then (.reenter layerError, st)
    else
      let url1 := st.req.url.map
        (fun u => ctx.protohost ++ u.drop (ctx.protohost.length + layerPath.length))
      let needSlash := ctx.protohost.length == 0 &&
        (match url1 with
         | some u => u.data.head? != some '/'
         | Option.none => false)
      let url2 := if needSlash then url1.map (fun u => "/" ++ u) else url1
      let base2 := ctx.parentUrl ++
        (if layerPath.data.getLast? = some '/' then layerPath.dropRight 1 else layerPath)
      let st5 := { st with
        removed := layerPath,
        slashAdded := needSlash,
        req := { st.req with url := url2, baseUrl := some base2 } }
      if layerError ≠ .none then (.invokeHandler true layerError, st5)
      else (.invokeHandler false .none, st5)
  else
    if layerError ≠ .none then (.invokeHandler true layerError, st)
    else (.invokeHandler false .none, st)

/-- The body of `next` after its guards (index.js lines 221-297): compute
the pathname (terminating with the pending error when it is unobtainable),
scan for the next matching layer, record `req.route`, compute the
effective params (mergeParams), run the param callbacks, then either
re-enter the loop with an error, dispatch into the Route, or trim the
consumed prefix and invoke the layer. -/
def routerAdvance (ctx : RouterCtx) (st2 : HState) (layerError : NextArg) :
    RouterOut × HState :=
  match getPathname ctx.protohost st2.req with
  | Option.none => (.finishNow layerError, st2)
  | some path =>
    let scan := scanLoop path st2.req.method (ctx.stack.drop st2.idx) layerError st2.optAcc
    let st3 := { st2 with idx := st2.idx + scan.consumed, optAcc := scan.acc }
    match scan.found with
    | Option.none => (.finishNow scan.le, st3)
    | some (layer, d) =>
      let req3 := match layer.route with
                  | some r => { st3.req with route := some r }
                  | Option.none => st3.req
      let newParams := if ctx.mergeFlag then mergeParamsFn d.params ctx.parentParams else d.params
      let pp := processParamsLoop ctx.registry d.keys st3.called newParams
      let st4 := { st3 with req := { req3 with params := some pp.params }, called := pp.called }
      if pp.err ≠ .none then
        (.reenter (if scan.le ≠ .none then scan.le else pp.err), st4)
      else
        match layer.route with
        | some _ => (.invokeHandler false .none, st4)
        | Option.none => trimPhase ctx st4 scan.le d.path path

/-- One entry into the `next` closure of Router.prototype.handle
(index.js lines 188-298): map "route" to no error, undo per-layer url
rewrites, exit the router on "router" (final callback deferred with no
error), finish when the stack is exhausted, defer once the incremented
sync counter exceeds 100, otherwise advance. -/
def routerNextStep (ctx : RouterCtx) (st : HState) (err : NextArg) :
    RouterOut × HState :=
  let layerError := if err = .route then NextArg.none else err
  let st1 := routerRestorePhase ctx st
  if layerError = .router then (.finishDefer .none, st1)
  else if ctx.stack.length ≤ st1.idx then (.finishDefer layerError, st1)
  else if 100 < st1.sync + 1 then (.deferNext err, { st1 with sync := st1.sync + 1 })
  else routerAdvance ctx { st1 with sync := st1.sync + 1 } layerError

/-- Result of one macro-turn of the Router loop. -/
inductive RTurnResult where
  | doneNow (arg : NextArg)
  | doneDefer (arg : NextArg)
  | deferred (arg : NextArg)
  | turnEnded
  | fuelOut
deriving DecidableEq, Repr

/-- A finished Router macro-turn: result, handler invocations performed,
and the unwound value of the mutable sync counter. -/
structure RTurnOut where
  result : RTurnResult
  invocations : Nat
  finalSync : Nat

/-- One macro-turn of the Router loop with synchronously continuing
handlers, threading the mutable sync counter the way the closure does
(the `sync = 0` after each invocation takes effect on unwind). -/
def routerRunTurn (ctx : RouterCtx) (oracle : Nat → Option NextArg) :
    Nat → Nat → HState → NextArg → RTurnOut
  | 0, _, st, _ => ⟨.fuelOut, 0, st.sync⟩
  | fuel + 1, k, st, arg =>
    match routerNextStep ctx st arg with
    | (.finishNow a, st2) => ⟨.doneNow a, 0, st2.sync⟩
    | (.finishDefer a, st2) => ⟨.doneDefer a, 0, st2.sync⟩
    | (.deferNext a, st2) => ⟨.deferred a, 0, st2.sync⟩
    | (.reenter a, st2) =>
      let r := routerRunTurn ctx oracle fuel k st2 a
      ⟨r.result, r.invocations, 0⟩
    | (.invokeHandler _ _, st2) =>
      match oracle k with
      | Option.none => ⟨.turnEnded, 1, 0⟩
      | some a2 =>
        let r := routerRunTurn ctx oracle fuel (k + 1) st2 a2
        ⟨r.result, r.invocations + 1, 0⟩

/- ============ done chain: restore and the OPTIONS responder ============ -/

/-- A response object: headers, body, ended flag. -/
structure Res where
  headers : List (String × String)
  body : Option String
  ended : Bool
deriving DecidableEq, Repr

/-- Header assignment (`res.setHeader`). -/
def hset : List (String × String) → String → String → List (String × String)
  | [], n, v => [(n, v)]
  | kv :: rest, n, v => if kv.1 = n then (n, v) :: rest else kv :: hset rest n v

/-- Header lookup. -/
def hget : List (String × String) → String → Option String
  | [], _ => Option.none
  | kv :: rest, n => if kv.1 = n then some kv.2 else hget rest n

/-- Lexicographic comparison of character lists by code point, modelling
the default JavaScript string ordering used by `Array.prototype.sort`. -/
def charListLe : List Char → List Char → Bool
  | [], _ => true
  | _ :: _, [] => false
  | a :: as, b :: bs =>
    if a.toNat < b.toNat then true
    else if b.toNat < a.toNat then false
    else charListLe as bs

/-- String comparison by code points. -/
def strLe (a b : String) : Bool :=
  charListLe a.data b.data

/-- Insertion into a sorted list of strings. -/
def insertStr (s : String) : List String → List String
  | [] => [s]
  | x :: rest => if strLe s x then s :: x :: rest else x :: insertStr s rest

/-- Insertion sort on strings, modelling `Array.prototype.sort` on the
(ASCII) method names. -/
def sortStrings : List String → List String
  | [] => []
  | x :: rest => insertStr x (sortStrings rest)

/-- First-occurrence deduplication, modelling the unique-method map built
from object keys (index.js lines 670-675). -/
def dedupGo (seen : List String) : List String → List String
  | [] => []
  | x :: rest => if seen.contains x then dedupGo seen rest else x :: dedupGo (x :: seen) rest

/-- Deduplicate keeping first occurrences. -/
def dedupFirst (l : List String) : List String :=
  dedupGo [] l

/-- The Allow header value: deduplicated, sorted, comma-joined (index.js
lines 669-678). -/
def allowJoin (methods : List String) : String :=
  String.intercalate ", " (sortStrings (dedupFirst methods))

/-- sendOptionsResponse (index.js lines 669-686). -/
def sendOptionsResponse (res : Res) (methods : List String) : Res :=
  { headers :=
      hset (hset (hset (hset res.headers
        "Allow" (allowJoin methods))
        "Content-Length" (toString (allowJoin methods).utf8ByteSize))
        "Content-Type" "text/plain")
        "X-Content-Type-Options" "nosniff",
    body := some (allowJoin methods),
    ended := true }

/-- The request fields captured by `restore(callback, req, 'baseUrl',
'next', 'params')` at entry to handle. -/
structure Captured where
  baseUrl : Option String
  nextSlot : Option Nat
  params : Option Params
deriving DecidableEq, Repr

/-- The restore wrapper writes the captured values back (index.js lines
652-663). -/
def restoreReq (cap : Captured) (req : Req) : Req :=
  { req with baseUrl := cap.baseUrl, nextSlot := cap.nextSlot, params := cap.params }

/-- The composed `done` callback: the restore wrapper, wrapped for OPTIONS
requests by generateOptionsResponder (index.js lines 460-468, 704-708).
Returns the request as the final callback sees it, the response, and
`some arg` when the original callback is invoked with `arg` (it is not
invoked when a synthesized OPTIONS response is sent). -/
def runDone (cap : Captured) (optAcc : Option (List String)) (res : Res)
    (req : Req) (arg : NextArg) : Req × Res × Option NextArg :=
  match optAcc with
  | Option.none => (restoreReq cap req, res, some arg)
  | some ms =>
    if arg ≠ .none ∨ ms.length = 0 then (restoreReq cap req, res, some arg)
    else (req, sendOptionsResponse res ms, Option.none)

/-- The entry bookkeeping of Router.handle (index.js lines 151-186):
capture baseUrl/next/params for restoration, install the continuation,
activate the OPTIONS accumulator, set baseUrl to the parent url and
originalUrl when absent. -/
def handleInit (req : Req) : Captured × Req × Option (List String) :=
  ({ baseUrl := req.baseUrl, nextSlot := req.nextSlot, params := req.params },
   { req with
     nextSlot := some 0,
     baseUrl := some (req.baseUrl.getD ""),
     originalUrl := req.originalUrl.orElse (fun _ => req.url) },
   if req.method == "OPTIONS" then some [] else Option.none)

/- ============ helper lemmas for the Route dispatch driver ============ -/

lemma routeNextStep_big_sync (stack : List RouteLayer) (method : String) (idx : Nat)
    {sync : Nat} (hs : 99 < sync) (err : NextArg) :
    routeNextStep stack method idx sync err = .callDone .none ∨
    routeNextStep stack method idx sync err = .callDone .router ∨
    routeNextStep stack method idx sync err = .callDone err ∨
    routeNextStep stack method idx sync err = .deferNext idx err := by
  unfold routeNextStep
  split
  · exact Or.inl rfl
  split
  · exact Or.inr (Or.inl rfl)
  split
  · exact Or.inr (Or.inr (Or.inl rfl))
  split
  · exact Or.inr (Or.inr (Or.inr rfl))
  · omega

lemma routeNextStep_invoke_sync {stack : List RouteLayer} {method : String}
    {idx sync : Nat} {err : NextArg} {j : Nat} {b : Bool} {a : NextArg} {i2 : Nat}
    (h : routeNextStep stack method idx sync err = .invoke j b a i2) : sync ≤ 99 := by
  by_contra hc
  push_neg at hc
  rcases routeNextStep_big_sync stack method idx hc err with h1 | h1 | h1 | h1 <;>
    exact absurd (h1.symm.trans h) (by simp)

/-- Within one macro-turn of Route.dispatch the number of handler
invocations is bounded: starting from counter value `sync`, at most
`100 - sync` handlers are entered before the loop defers or finishes. -/
lemma routeRunTurn_inv_le (stack : List RouteLayer) (method : String)
    (oracle : Nat → Option NextArg) :
    ∀ (fuel k idx sync : Nat) (arg : NextArg),
      (routeRunTurn stack method oracle fuel k idx sync arg).invocations ≤ 100 - sync := by
  intro fuel
  induction fuel with
  | zero => intro k idx sync arg; simp [routeRunTurn]
  | succ n ih =>
    intro k idx sync arg
    unfold routeRunTurn
    split
    · simp
    · simp
    · rename_i j b a i2 h
      have hs : sync ≤ 99 := routeNextStep_invoke_sync h
      split
      · show 1 ≤ 100 - sync
        omega
      · rename_i a2 horo
        have := ih (k + 1) i2 (sync + 1) a2
        show (routeRunTurn stack method oracle n (k + 1) i2 (sync + 1) a2).invocations + 1 ≤ 100 - sync
        omega

/-- After a macro-turn that entered at least one handler, the mutable
`sync` variable is 0 (every frame that invoked a handler runs `sync = 0`
as the synchronous chain unwinds), so the next macro-turn starts fresh. -/
lemma routeRunTurn_reset (stack : List RouteLayer) (method : String)
    (oracle : Nat → Option NextArg) :
    ∀ (fuel k idx sync : Nat) (arg : NextArg),
      1 ≤ (routeRunTurn stack method oracle fuel k idx sync arg).invocations →
      (routeRunTurn stack method oracle fuel k idx sync arg).finalSync = 0 := by
  intro fuel
  induction fuel with
  | zero => intro k idx sync arg h; simp [routeRunTurn] at h
  | succ n ih =>
    intro k idx sync arg
    unfold routeRunTurn
    split
    · intro h; simp at h
    · intro h; simp at h
    · split
      · intro _; rfl
      · intro _; rfl

/- ============ helper lemmas for the Router dispatch driver ============ -/

lemma routerRestorePhase_idx (ctx : RouterCtx) (st : HState) :
    (routerRestorePhase ctx st).idx = st.idx := by
  unfold routerRestorePhase
  repeat' split
  all_goals rfl

lemma routerRestorePhase_sync (ctx : RouterCtx) (st : HState) :
    (routerRestorePhase ctx st).sync = st.sync := by
  unfold routerRestorePhase
  repeat' split
  all_goals rfl

lemma routerRestorePhase_id (ctx : RouterCtx) {st : HState}
    (hsa : st.slashAdded = false) (hrm : st.removed = "") :
    routerRestorePhase ctx st = st := by
  rcases st with ⟨req, idx, sync, sa, rm, ca, oa⟩
  simp only at hsa hrm
  subst hsa
  subst hrm
  unfold routerRestorePhase
  simp

lemma trimPhase_sync (ctx : RouterCtx) (st : HState) (le : NextArg)
    (lp p : String) : (trimPhase ctx st le lp p).2.sync = st.sync := by
  unfold trimPhase
  repeat' split
  all_goals rfl

lemma routerAdvance_sync (ctx : RouterCtx) (st : HState) (le : NextArg) :
    (routerAdvance ctx st le).2.sync = st.sync := by
  unfold routerAdvance
  dsimp only
  repeat' split
  all_goals first
    | rfl
    | rw [trimPhase_sync]

lemma routerNextStep_cases (ctx : RouterCtx) (st : HState) (arg : NextArg) :
    (∃ a, (routerNextStep ctx st arg).1 = .finishNow a) ∨
    (∃ a, (routerNextStep ctx st arg).1 = .finishDefer a) ∨
    (∃ a, (routerNextStep ctx st arg).1 = .deferNext a) ∨
    (st.sync ≤ 99 ∧ (routerNextStep ctx st arg).2.sync = st.sync + 1) := by
  unfold routerNextStep
  dsimp only
  by_cases h0 : arg = NextArg.route
  · rw [if_pos h0, if_neg (by simp)]
    by_cases h1 : ctx.stack.length ≤ (routerRestorePhase ctx st).idx
    · rw [if_pos h1]
      right; left; exact ⟨_, rfl⟩
    · rw [if_neg h1]
      by_cases h2 : 100 < (routerRestorePhase ctx st).sync + 1
      · rw [if_pos h2]
        right; right; left; exact ⟨_, rfl⟩
      · rw [if_neg h2]
        rw [routerRestorePhase_sync] at h2
        right; right; right
        refine ⟨by omega, ?_⟩
        rw [routerAdvance_sync]
        simp [routerRestorePhase_sync]
  · rw [if_neg h0]
    by_cases hr : arg = NextArg.router
    · rw [if_pos hr]
      right; left; exact ⟨_, rfl⟩
    · rw [if_neg hr]
      by_cases h1 : ctx.stack.length ≤ (routerRestorePhase ctx st).idx
      · rw [if_pos h1]
        right; left; exact ⟨_, rfl⟩
      · rw [if_neg h1]
        by_cases h2 : 100 < (routerRestorePhase ctx st).sync + 1
        · rw [if_pos h2]
          right; right; left; exact ⟨_, rfl⟩
        · rw [if_neg h2]
          rw [routerRestorePhase_sync] at h2
          right; right; right
          refine ⟨by omega, ?_⟩
          rw [routerAdvance_sync]
          simp [routerRestorePhase_sync]

lemma routerRunTurn_inv_le (ctx : RouterCtx) (oracle : Nat → Option NextArg) :
    ∀ (fuel k : Nat) (st : HState) (arg : NextArg),
      (routerRunTurn ctx oracle fuel k st arg).invocations ≤ 100 - st.sync := by
  intro fuel
  induction fuel with
  | zero => intro k st arg; simp [routerRunTurn]
  | succ n ih =>
    intro k st arg
    unfold routerRunTurn
    split
    · simp
    · simp
    · simp
    · rename_i a st2 heq
      rcases routerNextStep_cases ctx st arg with ⟨a2, hx⟩ | ⟨a2, hx⟩ | ⟨a2, hx⟩ | ⟨hs, hsync⟩
      · rw [heq] at hx; simp at hx
      · rw [heq] at hx; simp at hx
      · rw [heq] at hx; simp at hx
      · rw [heq] at hsync
        have := ih k st2 a
        show (routerRunTurn ctx oracle n k st2 a).invocations ≤ 100 - st.sync
        simp only at hsync
        omega
    · rename_i b a st2 heq
      rcases routerNextStep_cases ctx st arg with ⟨a2, hx⟩ | ⟨a2, hx⟩ | ⟨a2, hx⟩ | ⟨hs, hsync⟩
      · rw [heq] at hx; simp at hx
      · rw [heq] at hx; simp at hx
      · rw [heq] at hx; simp at hx
      · rw [heq] at hsync
        simp only at hsync
        split
        · show 1 ≤ 100 - st.sync
          omega
        · rename_i a2' horo
          have := ih (k + 1) st2 a2'
          show (routerRunTurn ctx oracle n (k + 1) st2 a2').invocations + 1 ≤ 100 - st.sync
          omega

lemma routerRunTurn_reset (ctx : RouterCtx) (oracle : Nat → Option NextArg) :
    ∀ (fuel k : Nat) (st : HState) (arg : NextArg),
      1 ≤ (routerRunTurn ctx oracle fuel k st arg).invocations →
      (routerRunTurn ctx oracle fuel k st arg).finalSync = 0 := by
  intro fuel
  induction fuel with
  | zero => intro k st arg h; simp [routerRunTurn] at h
  | succ n ih =>
    intro k st arg
    unfold routerRunTurn
    split
    · intro h; simp at h
    · intro h; simp at h
    · intro h; simp at h
    · intro _; rfl
    · split
      · intro _; rfl
      · intro _; rfl

/- ===================== claim theorems: Route / Layer ===================== -/

/-- C10: dispatching a Route whose layer stack is empty calls `done()`
synchronously with no error and leaves the request object (in particular
`req.route`) completely unchanged, because the empty-stack check precedes
the `req.route = this` assignment. -/
theorem C10_empty_route_dispatch :
    ∀ (r : Route) (req : RouteReq), r.stack = [] →
      Route.dispatchInit r req = (req, .doneNow .none) := by
  intro r req h
  simp [Route.dispatchInit, h]

/-- Witness for C10 at a concrete empty Route. -/
theorem C10_empty_route_dispatch_witness :
    Route.dispatchInit { methods := [], allFlag := false, stack := [] }
        { method := "GET", route := Option.none } =
      ({ method := "GET", route := Option.none }, .doneNow .none) :=
  C10_empty_route_dispatch _ _ rfl

/-- C5: `_handlesMethod m` is true exactly when the all-flag is set, or `m`
is registered, or `m` is HEAD with HEAD unregistered and GET registered;
and `dispatch` computes the same HEAD-to-GET substitution as a local
lookup method only, leaving `req.method` unchanged. -/
theorem C5_handles_method :
    ∀ (r : Route) (m : String),
      (r.handlesMethod m = true ↔
        (r.allFlag = true ∨ r.methods.contains m = true ∨
          (m = "HEAD" ∧ r.methods.contains "HEAD" = false ∧
            r.methods.contains "GET" = true))) ∧
      (r.stack ≠ [] → ∀ req : RouteReq, req.method = m →
        Route.dispatchInit r req =
          ({ req with route := some r },
           .running (if m = "HEAD" ∧ r.methods.contains "HEAD" = false then "GET" else m)) ∧
        ((Route.dispatchInit r req).1).method = req.method) := by
  intro r m
  constructor
  · by_cases hall : r.allFlag <;>
      by_cases hm : m = "HEAD" <;>
      by_cases hH : r.methods.contains "HEAD" <;>
      by_cases hG : r.methods.contains "GET" <;>
      simp_all [Route.handlesMethod]
  · intro hs req hreq
    have hlen : ¬ r.stack.length = 0 := by
      intro h0
      exact hs (List.length_eq_zero.mp h0)
    subst hreq
    constructor
    · unfold Route.dispatchInit
      rw [if_neg hlen]
      by_cases hm : req.method = "HEAD" <;>
        by_cases hH : r.methods.contains "HEAD" <;>
        simp_all
    · unfold Route.dispatchInit
      rw [if_neg hlen]

/-- A concrete Route with one GET handler, used by witnesses. -/
def getOnlyRoute : Route where
  methods := ["GET"]
  allFlag := false
  stack := [{ method := some "GET", handler := { arity := 3, behavior := .ret } }]

/-- A concrete HEAD request, used by witnesses. -/
def headReq : RouteReq where
  method := "HEAD"
  route := Option.none

/-- Witness for C5: a Route with GET registered handles HEAD, and dispatch
substitutes GET for lookup while the request method stays HEAD. -/
theorem C5_handles_method_witness :
    getOnlyRoute.handlesMethod "HEAD" = true ∧
    Route.dispatchInit getOnlyRoute headReq =
      ({ method := "HEAD", route := some getOnlyRoute }, .running "GET") ∧
    ((Route.dispatchInit getOnlyRoute headReq).1).method = headReq.method := by
  have h1 := (C5_handles_method getOnlyRoute "HEAD").1
  have h2 := (C5_handles_method getOnlyRoute "HEAD").2 (by decide) headReq rfl
  refine ⟨h1.mpr (Or.inr (Or.inr ⟨rfl, by decide, by decide⟩)), ?_, h2.2⟩
  have := h2.1
  simpa using this

/-- C2 counterexample: `handleRequest` does invoke a handler that is not
3-parameter-shaped — a 2-ary handler (request, response) is executed, so
the claim that only 3-parameter-shaped handlers are invoked is false. -/
theorem C2_counterexample :
    handleRequest { arity := 2, behavior := .ret } = .handlerRan Option.none ∧
    ¬ (∀ h : Handler, (∃ a, handleRequest h = .handlerRan a) → h.arity = 3) := by
  refine ⟨by decide, fun hall => ?_⟩
  exact absurd (hall { arity := 2, behavior := .ret } ⟨Option.none, by decide⟩) (by decide)

/-- C2 (amended): `handleRequest` invokes the wrapped handler exactly when
its arity is at most 3, and resumes the continuation unchanged (with no
error) for arity above 3; `handleError` invokes only 4-ary handlers and
resumes the continuation with the same error unchanged for every other
arity. -/
theorem C2_arity_dispatch :
    ∀ (h : Handler) (err : NextArg),
      (3 < h.arity → handleRequest h = .skipped .none) ∧
      (h.arity ≤ 3 → handleRequest h = .handlerRan (runBody h)) ∧
      (h.arity ≠ 4 → handleError h err = .skipped err) ∧
      (h.arity = 4 → handleError h err = .handlerRan (runBody h)) := by
  intro h err
  refine ⟨fun hlt => ?_, fun hle => ?_, fun hne => ?_, fun heq => ?_⟩
  · simp [handleRequest, hlt]
  · simp [handleRequest, Nat.not_lt.mpr hle]
  · simp [handleError, hne]
  · simp [handleError, heq]

/-- Witness for C2 (amended) at concrete arities 5, 2 and 4. -/
theorem C2_arity_dispatch_witness :
    handleRequest { arity := 5, behavior := .ret } = .skipped .none ∧
    handleRequest { arity := 2, behavior := .ret } = .handlerRan Option.none ∧
    handleError { arity := 5, behavior := .ret } .route = .skipped .route ∧
    handleError { arity := 4, behavior := .ret } .route = .handlerRan Option.none :=
  ⟨(C2_arity_dispatch { arity := 5, behavior := .ret } .route).1 (by decide),
   (C2_arity_dispatch { arity := 2, behavior := .ret } .route).2.1 (by decide),
   (C2_arity_dispatch { arity := 5, behavior := .ret } .route).2.2.1 (by decide),
   (C2_arity_dispatch { arity := 4, behavior := .ret } .route).2.2.2 rfl⟩

/- ===================== claim theorems: control flow ===================== -/

/-- C1: a continuation called with "route" inside a Route terminates only
that Route (done with no error, no layer invoked, whatever the state);
"router" is forwarded out of the Route unconsumed as `done("router")`; the
Router loop receiving "router" defers the final callback with no error
regardless of remaining stack entries; and a "route" signal reaching the
Router loop is likewise mapped to no error, so neither signal is ever
delivered to the final callback as an error value. -/
theorem C1_control_signals :
    ∀ (stack : List RouteLayer) (method : String) (idx sync : Nat)
      (oracle : Nat → Option NextArg) (fuel k : Nat)
      (ctx : RouterCtx) (st : HState),
      routeNextStep stack method idx sync .route = .callDone .none ∧
      routeNextStep stack method idx sync .router = .callDone .router ∧
      routeRunTurn stack method oracle (fuel + 1) k idx sync .route =
        { result := .doneCalled .none, invocations := 0, finalSync := sync } ∧
      (routerNextStep ctx st .router).1 = .finishDefer .none ∧
      (ctx.stack.length ≤ st.idx → (routerNextStep ctx st .route).1 = .finishDefer .none) := by
  intro stack method idx sync oracle fuel k ctx st
  refine ⟨by simp [routeNextStep], by simp [routeNextStep], ?_, ?_, ?_⟩
  · unfold routeRunTurn
    simp [routeNextStep]
  · unfold routerNextStep
    simp
  · intro h
    unfold routerNextStep
    rw [if_pos rfl]
    rw [if_neg (by simp)]
    rw [if_pos (by rw [routerRestorePhase_idx]; exact h)]

/-- The empty request used by witnesses. -/
def reqW : Req where
  method := "GET"
  url := some "/"
  baseUrl := Option.none
  originalUrl := Option.none
  params := Option.none
  route := Option.none
  nextSlot := Option.none

/-- A match-anything middleware layer for witnesses. -/
def slashLayer : RLayer where
  route := Option.none
  slash := true
  matchers := []
  handler := { arity := 3, behavior := .ret }

/-- A Router context with an empty stack, for witnesses. -/
def ctxW : RouterCtx where
  stack := []
  protohost := ""
  parentUrl := ""
  parentParams := Option.none
  mergeFlag := false
  registry := fun _ => []

/-- A Router context with one middleware layer, for witnesses. -/
def ctxW1 : RouterCtx :=
  { ctxW with stack := [slashLayer] }

/-- An initial handle state, for witnesses. -/
def stW : HState where
  req := reqW
  idx := 0
  sync := 0
  slashAdded := false
  removed := ""
  called := []
  optAcc := Option.none

/-- The same state with the sync counter at the threshold, for witnesses. -/
def stW100 : HState :=
  { stW with sync := 100 }

/-- A concrete error value for witnesses. -/
def eW : JsError where
  name := "Error"
  msg := "x"
  status := Option.none

/-- Witness for C1 at concrete states. -/
theorem C1_control_signals_witness :
    routeNextStep [] "GET" 0 0 .route = .callDone .none ∧
    routeNextStep [] "GET" 0 0 .router = .callDone .router ∧
    routeRunTurn [] "GET" (fun _ => Option.none) 1 0 0 0 .route =
      { result := .doneCalled .none, invocations := 0, finalSync := 0 } ∧
    (routerNextStep ctxW stW .router).1 = .finishDefer .none ∧
    (routerNextStep ctxW stW .route).1 = .finishDefer .none := by
  have h := C1_control_signals [] "GET" 0 0 (fun _ => Option.none) 0 0 ctxW stW
  exact ⟨h.1, h.2.1, h.2.2.1, h.2.2.2.1, h.2.2.2.2 (by simp [ctxW, stW])⟩

/-- C3: in both the Route loop and the Router loop, a re-entry that finds
the incremented sync counter above 100 defers the next iteration through
setImmediate instead of recursing (provided the entry is not a termination
path); within any macro-turn the number of handler invocations is bounded
by `100 - sync` (so at most 100 from a fresh turn, bounding native stack
growth for arbitrarily long synchronous chains); and any turn that entered
at least one handler unwinds with the counter reset to 0, so the deferred
resumption starts a fresh count. -/
theorem C3_sync_guard :
    ∀ (stack : List RouteLayer) (method : String) (idx sync fuel k : Nat)
      (err arg : NextArg) (oracle oracle2 : Nat → Option NextArg)
      (ctx : RouterCtx) (st : HState),
      (err ≠ .route → err ≠ .router → idx < stack.length → 100 ≤ sync →
        routeNextStep stack method idx sync err = .deferNext idx err) ∧
      (arg ≠ .route → arg ≠ .router → st.idx < ctx.stack.length → 100 ≤ st.sync →
        (routerNextStep ctx st arg).1 = .deferNext arg) ∧
      (routeRunTurn stack method oracle fuel k idx sync err).invocations ≤ 100 - sync ∧
      (routerRunTurn ctx oracle2 fuel k st arg).invocations ≤ 100 - st.sync ∧
      (1 ≤ (routeRunTurn stack method oracle fuel k idx sync err).invocations →
        (routeRunTurn stack method oracle fuel k idx sync err).finalSync = 0) ∧
      (1 ≤ (routerRunTurn ctx oracle2 fuel k st arg).invocations →
        (routerRunTurn ctx oracle2 fuel k st arg).finalSync = 0) := by
  intro stack method idx sync fuel k err arg oracle oracle2 ctx st
  refine ⟨?_, ?_, routeRunTurn_inv_le stack method oracle fuel k idx sync err,
    routerRunTurn_inv_le ctx oracle2 fuel k st arg,
    routeRunTurn_reset stack method oracle fuel k idx sync err,
    routerRunTurn_reset ctx oracle2 fuel k st arg⟩
  · intro h1 h2 h3 h4
    unfold routeNextStep
    rw [if_neg h1, if_neg h2, if_neg (by omega), if_pos (by omega)]
  · intro h1 h2 h3 h4
    unfold routerNextStep
    dsimp only
    rw [if_neg h1, if_neg h2,
        if_neg (by rw [routerRestorePhase_idx]; omega),
        if_pos (by rw [routerRestorePhase_sync]; omega)]

/-- A one-layer Route stack for witnesses. -/
def routeStackW : List RouteLayer :=
  [{ method := Option.none, handler := { arity := 3, behavior := .ret } }]

/-- Witness for C3: at a concrete state with the counter at 100, both
loops defer; the concrete turn bounds and reset follow. -/
theorem C3_sync_guard_witness :
    routeNextStep routeStackW "GET" 0 100 (.error eW) = .deferNext 0 (.error eW) ∧
    (routerNextStep ctxW1 stW100 (.error eW)).1 = .deferNext (.error eW) ∧
    (routeRunTurn routeStackW "GET" (fun _ => some .none) 7 0 0 100 (.error eW)).invocations ≤ 0 ∧
    (routerRunTurn ctxW1 (fun _ => some .none) 7 0 stW100 (.error eW)).invocations ≤ 0 := by
  have h := C3_sync_guard routeStackW "GET" 0 100 7 0 (.error eW) (.error eW)
    (fun _ => some .none) (fun _ => some .none) ctxW1 stW100
  refine ⟨?_, ?_, h.2.2.1, ?_⟩
  · exact h.1 (by decide) (by decide) (by simp [routeStackW]) (by omega)
  · exact h.2.1 (by decide) (by decide) (by simp [ctxW1, ctxW, stW100, stW]) (by simp [stW100, stW])
  · have := h.2.2.2.1
    simpa [stW100, stW] using this

/- ===================== claim theorems: OPTIONS / restore / decode ===================== -/

lemma hget_hset (hs : List (String × String)) (n v : String) (n2 : String) :
    hget (hset hs n v) n2 = if n2 = n then some v else hget hs n2 := by
  induction hs with
  | nil =>
    by_cases h : n2 = n
    · simp [hget, hset, h]
    · simp [hget, hset, h, Ne.symm h]
  | cons kv rest ih =>
    by_cases h1 : kv.1 = n <;> by_cases h2 : n2 = n <;>
      simp_all [hget, hset] <;>
      by_cases h3 : kv.1 = n2 <;> simp_all [Ne.symm]

/-- C6: for an OPTIONS dispatch finishing with no error and a non-empty
accumulated method list, the wrapped done sends the synthesized response
instead of the callback, and its Allow header is the deduplicated, sorted,
comma-joined method list; with an error in flight or an empty list, the
behavior of the unwrapped done is preserved unchanged; `_methods`
synthesizes HEAD exactly when GET is registered without HEAD (and is
otherwise the registered set); and the scan records a matched Route's
methods into the accumulator when the Route does not handle OPTIONS. -/
theorem C6_auto_options :
    ∀ (cap : Captured) (res : Res) (req : Req) (arg : NextArg) (ms acc : List String)
      (r : Route) (l : RLayer) (rest : List RLayer) (path : String) (d : MatchData),
      (arg = .none → ms ≠ [] →
        runDone cap (some ms) res req arg = (req, sendOptionsResponse res ms, Option.none)) ∧
      (hget (sendOptionsResponse res ms).headers "Allow" = some (allowJoin ms)) ∧
      (arg ≠ .none ∨ ms = [] →
        runDone cap (some ms) res req arg = runDone cap Option.none res req arg) ∧
      ("HEAD" ∈ r.methodsList ↔ "HEAD" ∈ r.methods ∨ "GET" ∈ r.methods) ∧
      (∀ m, m ≠ "HEAD" → (m ∈ r.methodsList ↔ m ∈ r.methods)) ∧
      (l.route = some r → matchLayerFn l (some path) = .matched d →
        r.handlesMethod "OPTIONS" = false →
        scanLoop path "OPTIONS" (l :: rest) .none (some acc) =
          bumpScan (scanLoop path "OPTIONS" rest .none (some (acc ++ r.methodsList)))) := by
  intro cap res req arg ms acc r l rest path d
  refine ⟨?_, ?_, ?_, ?_, ?_, ?_⟩
  · intro ha hm
    simp only [runDone]
    rw [if_neg (by simp [ha, hm])]
  · simp [sendOptionsResponse, hget_hset]
  · intro h
    simp only [runDone]
    rw [if_pos (by rcases h with h | h <;> simp [h])]
  · by_cases hG : "GET" ∈ r.methods <;> by_cases hH : "HEAD" ∈ r.methods <;>
      simp [Route.methodsList, hG, hH]
  · intro m hm
    by_cases hG : "GET" ∈ r.methods <;> by_cases hH : "HEAD" ∈ r.methods <;>
      simp [Route.methodsList, hG, hH, hm]
  · intro hr hm hh
    simp only [scanLoop, hm, hr]
    rw [if_neg (by simp)]
    rw [if_pos (by simp [hh])]
    simp [optAccum, hh]

/-- Concrete response and capture record for witnesses. -/
def resW : Res where
  headers := []
  body := Option.none
  ended := false

/-- Concrete captured entry values for witnesses. -/
def capW : Captured where
  baseUrl := some "/base"
  nextSlot := some 7
  params := some [(ParamKey.str "id", "1")]

/-- A Route registering GET and POST, for witnesses. -/
def rGP : Route where
  methods := ["GET", "POST"]
  allFlag := false
  stack := [{ method := some "GET", handler := { arity := 3, behavior := .ret } }]

/-- A Router layer wrapping rGP that matches everything, for witnesses. -/
def routeLayerW : RLayer where
  route := some rGP
  slash := true
  matchers := []
  handler := { arity := 3, behavior := .ret }

/-- Witness for C6: the synthesized OPTIONS response for accumulated
methods POST, GET, GET carries Allow "GET, POST"; HEAD is synthesized for
rGP; the scan accumulates rGP's methods on an OPTIONS request. -/
theorem C6_auto_options_witness :
    runDone capW (some ["POST", "GET", "GET"]) resW reqW .none =
      (reqW, sendOptionsResponse resW ["POST", "GET", "GET"], Option.none) ∧
    hget (sendOptionsResponse resW ["POST", "GET", "GET"]).headers "Allow" =
      some (allowJoin ["POST", "GET", "GET"]) ∧
    allowJoin ["POST", "GET", "GET"] = "GET, POST" ∧
    "HEAD" ∈ rGP.methodsList ∧
    scanLoop "/x" "OPTIONS" [routeLayerW] .none (some []) =
      bumpScan (scanLoop "/x" "OPTIONS" [] .none (some ([] ++ rGP.methodsList))) := by
  have h := C6_auto_options capW resW reqW .none ["POST", "GET", "GET"] [] rGP
    routeLayerW [] "/x" { params := [], keys := [], path := "" }
  refine ⟨h.1 rfl (by decide), h.2.1, by decide, ?_, ?_⟩
  · exact h.2.2.2.1.mpr (Or.inr (by decide))
  · exact h.2.2.2.2.2 (by simp [routeLayerW]) (by simp [matchLayerFn, layerMatch, routeLayerW])
      (by decide)

/-- C7: every terminal path of the Router loop goes through the composed
done callback — "router" exit (deferred, no error), stack exhaustion
(deferred, pending error), pathname failure (immediate, pending error) and
scan exhaustion (immediate, pending error) — and whenever that callback
chain invokes the final user callback, the request's baseUrl, next and
params fields have been restored to the exact values captured at entry to
handle. -/
theorem C7_restore_on_exit :
    ∀ (ctx : RouterCtx) (st : HState) (err : NextArg) (path : String)
      (cap : Captured) (acc : Option (List String)) (res : Res) (req : Req)
      (arg : NextArg) (req2 : Req) (res2 : Res) (a2 : NextArg),
      ((routerNextStep ctx st .router).1 = .finishDefer .none) ∧
      (err ≠ .route → err ≠ .router → ctx.stack.length ≤ st.idx →
        (routerNextStep ctx st err).1 = .finishDefer err) ∧
      (err ≠ .route → err ≠ .router → st.idx < ctx.stack.length → st.sync ≤ 99 →
        st.slashAdded = false → st.removed = "" → st.req.url = Option.none →
        (routerNextStep ctx st err).1 = .finishNow err) ∧
      (err ≠ .route → err ≠ .router → st.idx < ctx.stack.length → st.sync ≤ 99 →
        st.slashAdded = false → st.removed = "" →
        getPathname ctx.protohost st.req = some path →
        (scanLoop path st.req.method (ctx.stack.drop st.idx) err st.optAcc).found = Option.none →
        (routerNextStep ctx st err).1 =
          .finishNow (scanLoop path st.req.method (ctx.stack.drop st.idx) err st.optAcc).le) ∧
      (runDone cap acc res req arg = (req2, res2, some a2) →
        req2.baseUrl = cap.baseUrl ∧ req2.nextSlot = cap.nextSlot ∧
        req2.params = cap.params ∧ a2 = arg) ∧
      ((handleInit req).1 = { baseUrl := req.baseUrl, nextSlot := req.nextSlot,
                              params := req.params }) := by
  intro ctx st err path cap acc res req arg req2 res2 a2
  refine ⟨?_, ?_, ?_, ?_, ?_, rfl⟩
  · unfold routerNextStep
    simp
  · intro h1 h2 h3
    unfold routerNextStep
    dsimp only
    rw [if_neg h1, if_neg h2, if_pos (by rw [routerRestorePhase_idx]; exact h3)]
  · intro h1 h2 h3 h4 h5 h6 h7
    unfold routerNextStep
    dsimp only
    rw [if_neg h1, if_neg h2,
        if_neg (by rw [routerRestorePhase_idx]; omega),
        if_neg (by rw [routerRestorePhase_sync]; omega),
        routerRestorePhase_id ctx h5 h6]
    unfold routerAdvance
    have hpn : getPathname ctx.protohost ({ st with sync := st.sync + 1 } : HState).req =
        Option.none := by
      simp [getPathname, h7]
    rw [hpn]
  · intro h1 h2 h3 h4 h5 h6 h7 h8
    unfold routerNextStep
    dsimp only
    rw [if_neg h1, if_neg h2,
        if_neg (by rw [routerRestorePhase_idx]; omega),
        if_neg (by rw [routerRestorePhase_sync]; omega),
        routerRestorePhase_id ctx h5 h6]
    unfold routerAdvance
    have hpn : getPathname ctx.protohost ({ st with sync := st.sync + 1 } : HState).req =
        some path := h7
    rw [hpn]
    dsimp only
    rw [h8]
  · intro h
    rcases acc with _ | ms
    · have h1 : restoreReq cap req = req2 := congrArg Prod.fst h
      have h2 : res = res2 := congrArg (fun x => x.2.1) h
      have h3 : some arg = some a2 := congrArg (fun x => x.2.2) h
      subst h1
      refine ⟨rfl, rfl, rfl, (Option.some.injEq _ _).mp h3.symm⟩
    · by_cases hc : arg ≠ .none ∨ ms.length = 0
      · rw [show runDone cap (some ms) res req arg = (restoreReq cap req, res, some arg) from by
          simp only [runDone]; rw [if_pos hc]] at h
        have h1 : restoreReq cap req = req2 := congrArg Prod.fst h
        have h3 : some arg = some a2 := congrArg (fun x => x.2.2) h
        subst h1
        refine ⟨rfl, rfl, rfl, (Option.some.injEq _ _).mp h3.symm⟩
      · rw [show runDone cap (some ms) res req arg = (req, sendOptionsResponse res ms, Option.none) from by
          simp only [runDone]; rw [if_neg hc]] at h
        exact absurd (congrArg (fun x => x.2.2) h) (by simp)

/-- A request without a url, for the C7 witness. -/
def reqNoUrl : Req :=
  { reqW with url := Option.none }

/-- A state over a request without a url, for the C7 witness. -/
def stNoUrl : HState :=
  { stW with req := reqNoUrl }

/-- A layer whose matcher never matches, for witnesses. -/
def noMatchLayer : RLayer where
  route := Option.none
  slash := false
  matchers := [fun _ => .ok Option.none]
  handler := { arity := 3, behavior := .ret }

/-- A Router context with one never-matching layer, for witnesses. -/
def ctxW2 : RouterCtx :=
  { ctxW with stack := [noMatchLayer] }

/-- Witness for C7 at concrete states: all four termination paths and the
restoration of the captured fields. -/
theorem C7_restore_on_exit_witness :
    (routerNextStep ctxW stW .router).1 = .finishDefer .none ∧
    (routerNextStep ctxW stW (.error eW)).1 = .finishDefer (.error eW) ∧
    (routerNextStep ctxW2 stNoUrl (.error eW)).1 = .finishNow (.error eW) ∧
    (routerNextStep ctxW2 stW (.error eW)).1 =
      .finishNow (scanLoop "/" "GET" [noMatchLayer] (.error eW) Option.none).le ∧
    ((runDone capW Option.none resW reqW (.error eW)).1.baseUrl = capW.baseUrl ∧
     (runDone capW Option.none resW reqW (.error eW)).1.nextSlot = capW.nextSlot ∧
     (runDone capW Option.none resW reqW (.error eW)).1.params = capW.params) := by
  have h := C7_restore_on_exit ctxW stW (.error eW) "/" capW Option.none resW reqW
    (.error eW) (restoreReq capW reqW) resW (.error eW)
  refine ⟨h.1, ?_, ?_, ?_, ?_⟩
  · exact h.2.1 (by decide) (by decide) (by simp [ctxW, stW])
  · exact (C7_restore_on_exit ctxW2 stNoUrl (.error eW) "/" capW Option.none resW reqW
      (.error eW) reqW resW .none).2.2.1 (by decide) (by decide)
      (by simp [ctxW2, ctxW, stNoUrl, stW]) (by simp [stNoUrl, stW])
      (by simp [stNoUrl, stW]) (by simp [stNoUrl, stW])
      (by simp [stNoUrl, stW, reqNoUrl, reqW])
  · have h4 := (C7_restore_on_exit ctxW2 stW (.error eW) "/" capW Option.none resW reqW
      (.error eW) reqW resW .none).2.2.2.1 (by decide) (by decide)
      (by simp [ctxW2, ctxW, stW]) (by simp [stW]) (by simp [stW]) (by simp [stW])
      (by decide)
      (by rfl)
    simpa [ctxW2, ctxW, stW, reqW] using h4
  · have h5 := (C7_restore_on_exit ctxW stW (.error eW) "/" capW Option.none resW reqW
      (.error eW) (restoreReq capW reqW) resW (.error eW)).2.2.2.2.1 rfl
    exact ⟨by simp [runDone, h5.1], by simp [runDone, h5.2.1], by simp [runDone, h5.2.2.1]⟩

lemma decodeParam_malformed (s : String) (hp : percentDecode s.data = Option.none) :
    decodeParam (some s) =
      .error { name := "URIError",
               msg := "Failed to decode param '" ++ s ++ "'",
               status := some 400 } := by
  have hne : ¬ s.length = 0 := by
    intro h0
    have hd : s.data = [] := List.length_eq_zero.mp h0
    rw [hd] at hp
    simp [percentDecode] at hp
  simp only [decodeParam, if_neg hne, decodeURIComponentM, hp]
  simp

/-- C8: a captured value with a malformed percent-escape makes decodeParam
raise a URIError whose message carries the offending raw value and whose
status is 400; the capture-decoding loop of a matcher propagates the first
such failure as a match-time exception; matchLayer turns a thrown match
exception into a returned value instead of crashing; the scan loop holds
it as the pending in-flight error and keeps scanning (keeping the first
pending error), and Route-wrapping layers are forced to non-match while an
error is pending. -/
theorem C8_decode_error_handling :
    ∀ (s v : String) (k : ParamKey) (caps : List (ParamKey × String))
      (l : RLayer) (rest : List RLayer) (p path m : String) (e : JsError)
      (d : MatchData) (r : Route) (le : NextArg) (acc : Option (List String)),
      (percentDecode s.data = Option.none →
        decodeParam (some s) =
          .error { name := "URIError",
                   msg := "Failed to decode param '" ++ s ++ "'",
                   status := some 400 } ∧
        List.IsInfix s.data ("Failed to decode param '" ++ s ++ "'").data) ∧
      (percentDecode v.data = Option.none →
        decodeEntries ((k, v) :: caps) =
          .error { name := "URIError",
                   msg := "Failed to decode param '" ++ v ++ "'",
                   status := some 400 }) ∧
      (layerMatch l (some p) = .error e → matchLayerFn l (some p) = .exn e) ∧
      (matchLayerFn l (some path) = .exn e →
        scanLoop path m (l :: rest) .none acc =
          bumpScan (scanLoop path m rest (.error e) acc)) ∧
      (le ≠ .none → matchLayerFn l (some path) = .exn e →
        scanLoop path m (l :: rest) le acc = bumpScan (scanLoop path m rest le acc)) ∧
      (le ≠ .none → matchLayerFn l (some path) = .matched d → l.route = some r →
        scanLoop path m (l :: rest) le acc = bumpScan (scanLoop path m rest le acc)) := by
  intro s v k caps l rest p path m e d r le acc
  refine ⟨?_, ?_, ?_, ?_, ?_, ?_⟩
  · intro hp
    refine ⟨decodeParam_malformed s hp, ?_⟩
    refine ⟨("Failed to decode param '").data, ("'").data, ?_⟩
    rw [String.data_append, String.data_append]
  · intro hp
    simp only [decodeEntries, decodeParam_malformed v hp]
  · intro h
    simp [matchLayerFn, h]
  · intro h
    simp only [scanLoop, h]
    simp
  · intro hle h
    simp only [scanLoop, h]
    rw [if_neg hle]
  · intro hle h hr
    simp only [scanLoop, h, hr]
    rw [if_pos hle]

/-- A matcher that always throws, for the C8 witness. -/
def throwMatcher : Matcher :=
  fun _ => .error eW

/-- A layer whose single matcher throws, for the C8 witness. -/
def throwLayer : RLayer where
  route := Option.none
  slash := false
  matchers := [throwMatcher]
  handler := { arity := 3, behavior := .ret }

/-- Witness for C8: the malformed escape "%zz" produces the URIError with
status 400 and the raw value inside the message; a throwing matcher is
caught by matchLayer and continues the scan with the pending error. -/
theorem C8_decode_error_handling_witness :
    decodeParam (some "%zz") =
      .error { name := "URIError",
               msg := "Failed to decode param '" ++ "%zz" ++ "'",
               status := some 400 } ∧
    List.IsInfix "%zz".data ("Failed to decode param '" ++ "%zz" ++ "'").data ∧
    matchLayerFn throwLayer (some "/x") = .exn eW ∧
    scanLoop "/x" "GET" [throwLayer] .none Option.none =
      bumpScan (scanLoop "/x" "GET" [] (.error eW) Option.none) ∧
    scanLoop "/x" "GET" [routeLayerW] (.error eW) Option.none =
      bumpScan (scanLoop "/x" "GET" [] (.error eW) Option.none) := by
  have h := C8_decode_error_handling "%zz" "%zz" (ParamKey.str "id") [] throwLayer []
    "/x" "/x" "GET" eW { params := [], keys := [], path := "" } rGP (.error eW) Option.none
  have h1 := h.1 (by decide)
  refine ⟨h1.1, h1.2, ?_, ?_, ?_⟩
  · exact h.2.2.1 rfl
  · exact h.2.2.2.1 (h.2.2.1 rfl)
  · have h6 := C8_decode_error_handling "%zz" "%zz" (ParamKey.str "id") [] routeLayerW []
      "/x" "/x" "GET" eW { params := [], keys := [], path := "" } rGP (.error eW) Option.none
    exact h6.2.2.2.2.2 (by decide) (by simp [matchLayerFn, layerMatch, routeLayerW])
      (by simp [routeLayerW])

end RouterVerify
